import Mathlib

/-!
Verification of the ag-ui-solid event-stream protocol layer.

Shallow embedding of:
* `src/utils/eventParser.ts` — `parseSSEChunk`, `MessageAccumulator`,
  `ToolCallAccumulator`, `applyStateDelta`, `accumulateMessage`;
* `src/hooks/useChatStream.ts` — `sendMessage`, `handleAGUIEvent` and
  the published `ChatStreamState`.

Modelling conventions:
* JavaScript strings are modelled as `String`, with the string methods the
  code uses (`split`, `trim`, `slice`, `startsWith`, `endsWith`) implemented
  on `List Char` to mirror their JS semantics directly.
* JSON values are modelled by the inductive `Json`.  JSON numbers are
  restricted to integers (every number appearing in the verified properties
  is an integer); a non-integer numeric literal makes the modelled
  `JSON.parse` fail instead of producing a wrong value.
* JavaScript objects are insertion-ordered string-keyed maps with unique
  keys, modelled as association lists; assigning to an existing key keeps
  its position, assigning a new key appends.
* `undefined` is modelled by `Option.none` wherever a value can be absent.
* JS `Map` keys and `===` comparisons are modelled by structural equality
  on `Json`, which agrees with JS SameValueZero / `===` on the primitive
  (string) keys the protocol uses.
* Wall-clock fields (`timestamp : Date`) are omitted: no verified property
  mentions them.  `crypto.randomUUID()` is modelled by a deterministic
  fresh-name supply threaded through the state.
* A thrown JS exception is modelled by `Except.error` carrying the error
  message.
-/

/-- JSON values (numbers restricted to integers, see header). -/
inductive Json where
  | null : Json
  | bool : Bool → Json
  | num : Int → Json
  | str : String → Json
  | arr : List Json → Json
  | obj : List (String × Json) → Json

/-- Lookup of a key in a JS object (association list with unique keys). -/
def objGet : List (String × Json) → String → Option Json
  | [], _ => none
  | (k, v) :: r, key => if k = key then some v else objGet r key

/-- JS object assignment: existing key keeps its position, new key appends. -/
def objInsert : List (String × Json) → String → Json → List (String × Json)
  | [], key, v => [(key, v)]
  | (k, w) :: r, key, v =>
    if k = key then (k, v) :: r else (k, w) :: objInsert r key v

/-- JS `delete obj[key]` (keys are unique, so at most one entry is removed). -/
def objRemove : List (String × Json) → String → List (String × Json)
  | [], _ => []
  | (k, w) :: r, key => if k = key then r else (k, w) :: objRemove r key

mutual
/-- Structural equality on `Json`; agrees with JS `===`/SameValueZero on the
primitive values (strings) the protocol uses for identifiers. -/
def jsonBeq : Json → Json → Bool
  | Json.null, Json.null => true
  | Json.bool a, Json.bool b => a == b
  | Json.num a, Json.num b => a == b
  | Json.str a, Json.str b => a == b
  | Json.arr a, Json.arr b => jsonListBeq a b
  | Json.obj a, Json.obj b => jsonFieldsBeq a b
  | _, _ => false

def jsonListBeq : List Json → List Json → Bool
  | [], [] => true
  | a :: as, b :: bs => jsonBeq a b && jsonListBeq as bs
  | _, _ => false

def jsonFieldsBeq (a b : List (String × Json)) : Bool :=
  match a, b with
  | [], [] => true
  | (k, v) :: as, (l, w) :: bs => k == l && jsonBeq v w && jsonFieldsBeq as bs
  | _, _ => false
end

/-- JS truthiness of a defined value. -/
def jsTruthy : Json → Bool
  | Json.null => false
  | Json.bool b => b
  | Json.num n => n != 0
  | Json.str s => s ≠ ""
  | Json.arr _ => true
  | Json.obj _ => true

/-- JS truthiness of a possibly-`undefined` value. -/
def jsTruthyU : Option Json → Bool
  | none => false
  | some v => jsTruthy v

/-- JS `x || d` for a defined left operand. -/
def jsOr (v d : Json) : Json := if jsTruthy v then v else d

/-- JS `x || d` where `x` may be `undefined`. -/
def jsOrD (x : Option Json) (d : Json) : Json :=
  match x with
  | some v => jsOr v d
  | none => d

mutual
/-- JS `String(v)` coercion (array case is `Array.prototype.toString`,
sufficient for the inputs exercised here). -/
def jsToString : Json → String
  | Json.null => "null"
  | Json.bool b => if b then "true" else "false"
  | Json.num n => toString n
  | Json.str s => s
  | Json.arr l => jsToStringList l
  | Json.obj _ => "[object Object]"

def jsToStringList : List Json → String
  | [] => ""
  | [v] => jsToString v
  | v :: rest => jsToString v ++ "," ++ jsToStringList rest
end

/-- JS `String(v)` where `v` may be `undefined`. -/
def jsToStringU : Option Json → String
  | none => "undefined"
  | some v => jsToString v

/-- JS property access `e[k]` for the event fields used by the code:
objects look the key up, every other value yields `undefined`. -/
def jfield (e : Json) (k : String) : Option Json :=
  match e with
  | Json.obj l => objGet l k
  | _ => none

/-- Whitespace as recognised by `JSON.parse` and `String.prototype.trim`
on the inputs exercised here. -/
def isWsChar (c : Char) : Bool := c = ' ' || c = '\t' || c = '\n' || c = '\r'

/-- Strip leading JSON whitespace. -/
def skipWs : List Char → List Char
  | [] => []
  | c :: r => if isWsChar c then skipWs r else c :: r

/-- JS `String.prototype.trim` on the character list of a string. -/
def trimChars (s : List Char) : List Char :=
  ((s.dropWhile isWsChar).reverse.dropWhile isWsChar).reverse

/-- Parse a run of decimal digits. -/
def takeDigits : List Char → List Char × List Char
  | [] => ([], [])
  | c :: r =>
    if c.isDigit then
      let (ds, rest) := takeDigits r
      (c :: ds, rest)
    else ([], c :: r)

/-- Digits to a natural number. -/
def digitsToNat (l : List Char) : Nat :=
  l.foldl (fun acc c => acc * 10 + (c.toNat - '0'.toNat)) 0

/-- Parse a JSON number (integers only, see header). -/
def parseNum : List Char → Option (Json × List Char)
  | '-' :: r =>
    match takeDigits r with
    | ([], _) => none
    | (ds, rest) => some (Json.num (-(digitsToNat ds : Int)), rest)
  | s =>
    match takeDigits s with
    | ([], _) => none
    | (ds, rest) => some (Json.num (digitsToNat ds : Int), rest)

/-- Value of a hexadecimal digit (code-point arithmetic). -/
def hexVal (c : Char) : Option Nat :=
  let n := c.toNat
  if 48 ≤ n && n ≤ 57 then some (n - 48)
  else if 97 ≤ n && n ≤ 102 then some (n - 87)
  else if 65 ≤ n && n ≤ 70 then some (n - 55)
  else none

/-- Parse the body of a JSON string after the opening quote. -/
def parseStrBody : Nat → List Char → List Char → Option (String × List Char)
  | 0, _, _ => none
  | Nat.succ fuel, acc, s =>
    match s with
    | [] => none
    | '"' :: r => some (String.mk acc.reverse, r)
    | '\\' :: e :: r =>
      match e with
      | '"' => parseStrBody fuel ('"' :: acc) r
      | '\\' => parseStrBody fuel ('\\' :: acc) r
      | '/' => parseStrBody fuel ('/' :: acc) r
      | 'n' => parseStrBody fuel ('\n' :: acc) r
      | 't' => parseStrBody fuel ('\t' :: acc) r
      | 'r' => parseStrBody fuel ('\r' :: acc) r
      | 'b' => parseStrBody fuel (Char.ofNat 8 :: acc) r
      | 'f' => parseStrBody fuel (Char.ofNat 12 :: acc) r
      | 'u' =>
        match r with
        | h1 :: h2 :: h3 :: h4 :: r2 =>
          match hexVal h1, hexVal h2, hexVal h3, hexVal h4 with
          | some a, some b, some c, some d =>
            parseStrBody fuel (Char.ofNat (((a * 16 + b) * 16 + c) * 16 + d) :: acc) r2
          | _, _, _, _ => none
        | _ => none
      | _ => none
    | c :: r =>
      if c.toNat < 32 then none else parseStrBody fuel (c :: acc) r

mutual
/-- `JSON.parse` value parser (recursive descent, fuel-indexed). -/
def parseVal : Nat → List Char → Option (Json × List Char)
  | 0, _ => none
  | Nat.succ fuel, s =>
    match skipWs s with
    | [] => none
    | c :: r =>
      if c = '{' then
        match skipWs r with
        | '}' :: r2 => some (Json.obj [], r2)
        | r2 => parseMembers fuel r2 []
      else if c = '[' then
        match skipWs r with
        | ']' :: r2 => some (Json.arr [], r2)
        | r2 => parseElems fuel r2 []
      else if c = '"' then
        match parseStrBody (r.length + 1) [] r with
        | some (str, rest) => some (Json.str str, rest)
        | none => none
      else if c = 't' then
        match r with
        | 'r' :: 'u' :: 'e' :: r2 => some (Json.bool true, r2)
        | _ => none
      else if c = 'f' then
        match r with
        | 'a' :: 'l' :: 's' :: 'e' :: r2 => some (Json.bool false, r2)
        | _ => none
      else if c = 'n' then
        match r with
        | 'u' :: 'l' :: 'l' :: r2 => some (Json.null, r2)
        | _ => none
      else if c = '-' || c.isDigit then parseNum (c :: r)
      else none

/-- Parse the members of a JSON object (at least one expected). -/
def parseMembers : Nat → List Char → List (String × Json) →
    Option (Json × List Char)
  | 0, _, _ => none
  | Nat.succ fuel, s, acc =>
    match skipWs s with
    | '"' :: r =>
      match parseStrBody (r.length + 1) [] r with
      | some (key, r2) =>
        match skipWs r2 with
        | ':' :: r3 =>
          match parseVal fuel r3 with
          | some (v, r4) =>
            let acc2 := objInsert acc key v
            match skipWs r4 with
            | ',' :: r5 => parseMembers fuel r5 acc2
            | '}' :: r5 => some (Json.obj acc2, r5)
            | _ => none
          | none => none
        | _ => none
      | none => none
    | _ => none

/-- Parse the elements of a JSON array (at least one expected). -/
def parseElems : Nat → List Char → List Json → Option (Json × List Char)
  | 0, _, _ => none
  | Nat.succ fuel, s, acc =>
    match parseVal fuel s with
    | some (v, r) =>
      match skipWs r with
      | ',' :: r2 => parseElems fuel r2 (acc ++ [v])
      | ']' :: r2 => some (Json.arr (acc ++ [v]), r2)
      | _ => none
    | none => none
end

/-- `JSON.parse`: returns `none` exactly when the JS call would throw. -/
def parseJson (s : List Char) : Option Json :=
  match parseVal (s.length + 1) s with
  | some (v, rest) => if skipWs rest = [] then some v else none
  | none => none

/-! ## SSE chunk parsing (`parseSSEChunk` in `src/utils/eventParser.ts`) -/

/-- JS `String.prototype.split` with a one-character separator. -/
def splitChar (sep : Char) : List Char → List (List Char)
  | [] => [[]]
  | c :: rest =>
    if c = sep then [] :: splitChar sep rest
    else
      match splitChar sep rest with
      | [] => [[c]]
      | l :: ls => (c :: l) :: ls

/-- A recognised event is a truthy value whose `type` field is a string
(the `event && typeof event.type === 'string'` check). -/
def eventOk (v : Json) : Bool :=
  jsTruthy v &&
    match jfield v "type" with
    | some (Json.str _) => true
    | _ => false

/-- Processing of one split-off line of the combined SSE text: lines with
the `data: ` marker have the remainder trimmed and `JSON.parse`d; malformed
payloads are dropped (the `catch` branch only logs). -/
def processLine (line : List Char) : List Json :=
  if line.take 6 = "data: ".data then
    let jsonData := trimChars (line.drop 6)
    if jsonData = [] then []
    else
      match parseJson jsonData with
      | some v => if eventOk v then [v] else []
      | none => []
  else []

/-- `parseSSEChunk(buffer, chunk)`: concatenate, split on `'\n'`, keep the
last line as the new buffer unless the text ends with a newline, and decode
each remaining line. -/
def parseSSEChunk (buffer chunk : List Char) : List Json × List Char :=
  let combined := buffer ++ chunk
  let lines := splitChar '\n' combined
  let hasTrailingNewline := combined.getLast? = some '\n'
  let newBuffer := if hasTrailingNewline then [] else (lines.getLast?.getD [])
  let procLines := if hasTrailingNewline then lines else lines.dropLast
  ((procLines.map processLine).flatten, newBuffer)

/-- Folding `parseSSEChunk` over a chunk sequence, threading the returned
buffer into the next call and concatenating the emitted events (the read
loop in `sendMessage`). -/
def foldSSE (chunks : List (List Char)) : List Json × List Char :=
  chunks.foldl
    (fun acc c =>
      let r := parseSSEChunk acc.2 c
      (acc.1 ++ r.1, r.2))
    ([], [])

/-! ## Accumulators (`MessageAccumulator`, `ToolCallAccumulator`) -/

/-- Equality of JS `Map` keys (possibly-`undefined` values, SameValueZero
modelled structurally — see header). -/
def keyBeq : Option Json → Option Json → Bool
  | none, none => true
  | some a, some b => jsonBeq a b
  | _, _ => false

/-- `Map.prototype.get`. -/
def mapGet (m : List (Option Json × α)) (k : Option Json) : Option α :=
  match m with
  | [] => none
  | (k₂, v) :: rest => if keyBeq k₂ k then some v else mapGet rest k

/-- `Map.prototype.set`: update in place or append, preserving order. -/
def mapSet (m : List (Option Json × α)) (k : Option Json) (v : α) :
    List (Option Json × α) :=
  match m with
  | [] => [(k, v)]
  | (k₂, w) :: rest =>
    if keyBeq k₂ k then (k₂, v) :: rest else (k₂, w) :: mapSet rest k v

/-- The published `ToolResult` record (`src/types`); `timestamp` omitted. -/
structure ToolResult where
  id : Json
  toolName : Json
  input : List (String × Json)
  output : Json
  status : Json

/-- `Partial<Message>` as built by `MessageAccumulator`; `timestamp`
omitted.  `content` starts as `''` and is always a string thereafter, so
the `(message.content || '')` reads in the source are identity here. -/
structure PartialMessage where
  id : Option Json
  role : Json
  content : String
  toolResults : List ToolResult

/-- `Partial<ToolResult>` as built by `ToolCallAccumulator`; `timestamp`
omitted.  `output` becomes the raw `event.result` on a RESULT event and so
may be `undefined`. -/
structure PartialToolResult where
  id : Option Json
  toolName : Option Json
  input : List (String × Json)
  output : Option Json
  status : Json

/-- `MessageAccumulator`: keyed map `event.messageId → Partial<Message>`. -/
structure MessageAccumulator where
  messages : List (Option Json × PartialMessage)

/-- `handleStart`: create the entry (role defaulting to `'assistant'`). -/
def MessageAccumulator.handleStart (acc : MessageAccumulator) (e : Json) :
    MessageAccumulator × Option PartialMessage :=
  let message : PartialMessage :=
    { id := jfield e "messageId"
      role := jsOrD (jfield e "role") (Json.str "assistant")
      content := ""
      toolResults := [] }
  (⟨mapSet acc.messages (jfield e "messageId") message⟩, some message)

/-- `handleContent`: append the delta to an existing entry; an unknown
`messageId` returns `null` and leaves the map untouched. -/
def MessageAccumulator.handleContent (acc : MessageAccumulator) (e : Json) :
    MessageAccumulator × Option PartialMessage :=
  match mapGet acc.messages (jfield e "messageId") with
  | some m =>
    let m2 := { m with content := m.content ++ jsToStringU (jfield e "delta") }
    (⟨mapSet acc.messages (jfield e "messageId") m2⟩, some m2)
  | none => (acc, none)

/-- `handleEnd`: return the entry unchanged (or `null` if unknown). -/
def MessageAccumulator.handleEnd (acc : MessageAccumulator) (e : Json) :
    MessageAccumulator × Option PartialMessage :=
  match mapGet acc.messages (jfield e "messageId") with
  | some m => (acc, some m)
  | none => (acc, none)

/-- `handleChunk`: get-or-create using `event.messageId || randomUUID()`,
then append the delta when it is truthy. -/
def MessageAccumulator.handleChunk (acc : MessageAccumulator) (fresh : String)
    (e : Json) : MessageAccumulator × Option PartialMessage :=
  let messageId := jsOrD (jfield e "messageId") (Json.str fresh)
  let found := mapGet acc.messages (some messageId)
  let m :=
    match found with
    | some m => m
    | none =>
      { id := some messageId
        role := jsOrD (jfield e "role") (Json.str "assistant")
        content := ""
        toolResults := [] }
  let m2 :=
    if jsTruthyU (jfield e "delta") then
      { m with content := m.content ++ jsToStringU (jfield e "delta") }
    else m
  (⟨mapSet acc.messages (some messageId) m2⟩, some m2)

/-- `MessageAccumulator.handleEvent`: dispatch on `event.type`. -/
def MessageAccumulator.handleEvent (acc : MessageAccumulator) (fresh : String)
    (e : Json) : MessageAccumulator × Option PartialMessage :=
  match jfield e "type" with
  | some (Json.str t) =>
    if t = "TEXT_MESSAGE_START" then acc.handleStart e
    else if t = "TEXT_MESSAGE_CONTENT" then acc.handleContent e
    else if t = "TEXT_MESSAGE_END" then acc.handleEnd e
    else if t = "TEXT_MESSAGE_CHUNK" then acc.handleChunk fresh e
    else (acc, none)
  | _ => (acc, none)

/-- `getMessage`. -/
def MessageAccumulator.getMessage (acc : MessageAccumulator)
    (messageId : Option Json) : Option PartialMessage :=
  mapGet acc.messages messageId

/-- Entries contributed by a JS object spread `{...v}` of an arbitrary
value: objects contribute their fields, arrays and strings their indexed
elements, primitives nothing. -/
def jsSpreadEntries : Json → List (String × Json)
  | Json.obj l => l
  | Json.arr l => l.enum.map (fun p => (toString p.1, p.2))
  | Json.str s => s.data.enum.map (fun p => (toString p.1, Json.str (String.mk [p.2])))
  | _ => []

/-- JS `{ ...current, ...v }` where `current` is an object. -/
def jsSpreadMerge (current : List (String × Json)) (v : Json) :
    List (String × Json) :=
  (jsSpreadEntries v).foldl (fun m kv => objInsert m kv.1 kv.2) current

/-- `ToolCallAccumulator`: keyed map `event.toolCallId → Partial<ToolResult>`. -/
structure ToolCallAccumulator where
  toolCalls : List (Option Json × PartialToolResult)

/-- `handleStart`: create the entry with empty input and pending status. -/
def ToolCallAccumulator.handleStart (acc : ToolCallAccumulator) (e : Json) :
    ToolCallAccumulator × Option PartialToolResult :=
  let toolCall : PartialToolResult :=
    { id := jfield e "toolCallId"
      toolName := jfield e "toolCallName"
      input := []
      output := some (Json.str "")
      status := Json.str "pending" }
  (⟨mapSet acc.toolCalls (jfield e "toolCallId") toolCall⟩, some toolCall)

/-- `handleArgs`: `JSON.parse` the args and spread-merge into the input;
a parse failure is caught and leaves the entry untouched. -/
def ToolCallAccumulator.handleArgs (acc : ToolCallAccumulator) (e : Json) :
    ToolCallAccumulator × Option PartialToolResult :=
  match mapGet acc.toolCalls (jfield e "toolCallId") with
  | some tc =>
    let tc2 :=
      match parseJson (jsToStringU (jfield e "args")).data with
      | some v => { tc with input := jsSpreadMerge tc.input v }
      | none => tc
    (⟨mapSet acc.toolCalls (jfield e "toolCallId") tc2⟩, some tc2)
  | none => (acc, none)

/-- `handleEnd`: return the entry (or `null`), no change. -/
def ToolCallAccumulator.handleEnd (acc : ToolCallAccumulator) (e : Json) :
    ToolCallAccumulator × Option PartialToolResult :=
  (acc, mapGet acc.toolCalls (jfield e "toolCallId"))

/-- `handleResult`: set `output` to the raw `event.result` and `status` to
`event.status || 'success'`. -/
def ToolCallAccumulator.handleResult (acc : ToolCallAccumulator) (e : Json) :
    ToolCallAccumulator × Option PartialToolResult :=
  match mapGet acc.toolCalls (jfield e "toolCallId") with
  | some tc =>
    let tc2 := { tc with
      output := jfield e "result"
      status := jsOrD (jfield e "status") (Json.str "success") }
    (⟨mapSet acc.toolCalls (jfield e "toolCallId") tc2⟩, some tc2)
  | none => (acc, none)

/-- `ToolCallAccumulator.handleEvent`: dispatch on `event.type`. -/
def ToolCallAccumulator.handleEvent (acc : ToolCallAccumulator) (e : Json) :
    ToolCallAccumulator × Option PartialToolResult :=
  match jfield e "type" with
  | some (Json.str t) =>
    if t = "TOOL_CALL_START" then acc.handleStart e
    else if t = "TOOL_CALL_ARGS" then acc.handleArgs e
    else if t = "TOOL_CALL_END" then acc.handleEnd e
    else if t = "TOOL_CALL_RESULT" then acc.handleResult e
    else (acc, none)
  | _ => (acc, none)

/-- `getParentMessageId`: read off the event. -/
def ToolCallAccumulator.getParentMessageId (e : Json) : Option Json :=
  jfield e "parentMessageId"

/-- Deterministic model of the `crypto.randomUUID()` supply (see header). -/
def freshName (n : Nat) : String := "uuid-" ++ toString n

/-- Validity check at the end of `accumulateMessage`
(`!message.id || !message.role` truthiness; `content` is always a string
here, so `content === undefined` is impossible). -/
def msgValid (m : PartialMessage) : Bool := jsTruthyU m.id && jsTruthy m.role

/-- `accumulateMessage`: fold `handleEvent` over the events, keeping the last
non-null partial, then validate; `throw` is modelled by `Except.error`. -/
def accumulateMessage (events : List Json) : Except String PartialMessage :=
  let final :=
    events.enum.foldl
      (fun (st : MessageAccumulator × Option PartialMessage) ie =>
        let r := st.1.handleEvent (freshName ie.1) ie.2
        (r.1, match r.2 with | some m => some m | none => st.2))
      (⟨[]⟩, none)
  match final.2 with
  | some m => if msgValid m then .ok m else .error "Invalid message events"
  | none => .error "Invalid message events"

/-! ## State synchronizer (`applyStateDelta`) -/

/-- The navigation of the `replace`/`add` branch: walk the path creating
`{}` for missing segments, then assign the final segment.  An empty path
assigns the key `"undefined"` (JS `current[undefined] = value` after the
`pathParts[-1]` read).  Writing through a non-object is a strict-mode
`TypeError`; the spec documents array indices as out of scope for this
core, and writing into an array is modelled as the same error. -/
def setPath (cur : Json) (parts : List String) (v : Json) : Except String Json :=
  match parts with
  | [] =>
    match cur with
    | Json.obj l => .ok (Json.obj (objInsert l "undefined" v))
    | _ => .error "TypeError"
  | [last] =>
    match cur with
    | Json.obj l => .ok (Json.obj (objInsert l last v))
    | _ => .error "TypeError"
  | p :: rest =>
    match cur with
    | Json.obj l =>
      let child := match objGet l p with
                   | some c => c
                   | none => Json.obj []
      match setPath child rest v with
      | .ok c2 => .ok (Json.obj (objInsert l p c2))
      | .error m => .error m
    | _ => .error "TypeError"

/-- The navigation of the `remove` branch: walk the path without creating
segments (`current = current[part]`, which is a `TypeError` once `current`
is `undefined`), then `delete` the final segment.  `delete` on a
non-object is a silent no-op; deleting from an array is modelled as an
error (array indices are documented as out of scope). -/
def removePath (cur : Json) (parts : List String) : Except String Json :=
  match parts with
  | [] =>
    match cur with
    | Json.obj l => .ok (Json.obj (objRemove l "undefined"))
    | Json.arr _ => .error "TypeError"
    | _ => .ok cur
  | [last] =>
    match cur with
    | Json.obj l => .ok (Json.obj (objRemove l last))
    | Json.arr _ => .error "TypeError"
    | _ => .ok cur
  | p :: rest =>
    match cur with
    | Json.obj l =>
      match objGet l p with
      | some c =>
        match removePath c rest with
        | .ok c2 => .ok (Json.obj (objInsert l p c2))
        | .error m => .error m
      | none => .error "TypeError"
    | _ => .error "TypeError"

/-- One patch operation of `applyStateDelta`: split the path on `'/'` and
drop empty segments, then dispatch on `operation.op`; an unrecognised op
only logs a warning and leaves the state unchanged.  Reading
`operation.path.split` when `path` is not a string is a `TypeError`. -/
def applyOp (cur : Json) (operation : Json) : Except String Json :=
  match jfield operation "path" with
  | some (Json.str path) =>
    let pathParts := (splitChar '/' path.data).map String.mk |>.filter (· ≠ "")
    match jfield operation "op" with
    | some (Json.str op) =>
      if op = "replace" || op = "add" then
        setPath cur pathParts ((jfield operation "value").getD Json.null)
      else if op = "remove" then removePath cur pathParts
      else .ok cur
    | _ => .ok cur
  | _ => .error "TypeError"

/-- `applyStateDelta(state, delta)`: deep-clone (identity in a pure model)
and apply the operations in order; iterating a non-array delta is a
`TypeError`. -/
def applyStateDelta (state : Json) (delta : Json) : Except String Json :=
  match delta with
  | Json.arr ops => ops.foldlM applyOp state
  | _ => .error "TypeError: delta is not iterable"

/-! ## Orchestrator (`useChatStream` in `src/hooks/useChatStream.ts`) -/

/-- The published `Message` record; `timestamp` omitted.  `toolResults` is
optional in the TS type: user messages are created without it. -/
structure Message where
  id : Json
  role : Json
  content : String
  toolResults : Option (List ToolResult)

/-- The published `ChatStreamState` signals. -/
structure ChatState where
  messages : List Message
  isStreaming : Bool
  error : Option Json
  currentThreadId : Option Json
  currentRunId : Option Json
  agentState : Option Json
  completedSteps : List (Option Json)

/-- The initial hook state. -/
def initialChatState : ChatState :=
  { messages := []
    isStreaming := false
    error := none
    currentThreadId := none
    currentRunId := none
    agentState := none
    completedSteps := [] }

/-- The in-flight state of one `sendMessage` call: the two accumulators,
the published signals, and the fresh-name supply for `crypto.randomUUID()`. -/
structure RunState where
  ma : MessageAccumulator
  ta : ToolCallAccumulator
  chat : ChatState
  nextFresh : Nat

/-- JS `Array.prototype.findIndex` (index of the first match, if any). -/
def jsFindIndex (p : α → Bool) : List α → Option Nat
  | [] => none
  | a :: l => if p a then some 0 else (jsFindIndex p l).map (· + 1)

/-- Update the first message whose id matches `target` (JS `findIndex`
followed by `updated[index] = …`); no match leaves the list unchanged. -/
def updateMessageAt (msgs : List Message) (target : Json)
    (f : Message → Message) : List Message :=
  match jsFindIndex (fun m => jsonBeq m.id target) msgs with
  | some i =>
    match msgs.get? i with
    | some m => msgs.set i (f m)
    | none => msgs
  | none => msgs

/-- The per-message body of the `TOOL_CALL_ARGS` / `TOOL_CALL_RESULT`
update: replace the first tool result whose id matches, if any. -/
def updateToolResultOne (target : Option Json) (f : ToolResult → ToolResult)
    (message : Message) : Message :=
  match message.toolResults with
  | some trs =>
    match jsFindIndex (fun t => keyBeq (some t.id) target) trs with
    | some i =>
      match trs.get? i with
      | some t => { message with toolResults := some (trs.set i (f t)) }
      | none => message
    | none => message
  | none => message

/-- The `TOOL_CALL_ARGS` / `TOOL_CALL_RESULT` update: map over all
messages, updating in each one the first tool result whose id matches. -/
def updateToolResult (msgs : List Message) (target : Option Json)
    (f : ToolResult → ToolResult) : List Message :=
  msgs.map (updateToolResultOne target f)

/-- `handleAGUIEvent`: dispatch one decoded event to the accumulators and
the published signals.  A JS exception escaping the handler (only possible
through `applyStateDelta`) is `Except.error`. -/
def handleAGUIEvent (e : Json) (rs : RunState) : Except String RunState :=
  match jfield e "type" with
  | some (Json.str t) =>
    if t = "RUN_STARTED" then
      .ok { rs with chat := { rs.chat with
        currentThreadId := jfield e "threadId"
        currentRunId := jfield e "runId" } }
    else if t = "RUN_FINISHED" then .ok rs
    else if t = "RUN_ERROR" then
      .ok { rs with chat := { rs.chat with
        error := some (jsOrD (jfield e "message") (Json.str "Agent error")) } }
    else if t = "STEP_STARTED" then .ok rs
    else if t = "STEP_FINISHED" then
      .ok { rs with chat := { rs.chat with
        completedSteps := rs.chat.completedSteps ++ [jfield e "stepName"] } }
    else if t = "TEXT_MESSAGE_START" then
      let r := rs.ma.handleEvent (freshName rs.nextFresh) e
      let chat :=
        match r.2 with
        | some pm =>
          match pm.id with
          | some idv =>
            if jsTruthy idv then
              if (rs.chat.messages.find? (fun m => jsonBeq m.id idv)).isSome
              then rs.chat
              else { rs.chat with messages := rs.chat.messages ++
                [{ id := idv
                   role := jsOr pm.role (Json.str "assistant")
                   content := pm.content
                   toolResults := some [] }] }
            else rs.chat
          | none => rs.chat
        | none => rs.chat
      .ok { rs with ma := r.1, chat := chat }
    else if t = "TEXT_MESSAGE_CONTENT" then
      let r := rs.ma.handleEvent (freshName rs.nextFresh) e
      let chat :=
        match r.2 with
        | some pm =>
          match pm.id with
          | some idv =>
            if jsTruthy idv then
              match jsFindIndex (fun m => jsonBeq m.id idv) rs.chat.messages with
              | none => { rs.chat with messages := rs.chat.messages ++
                  [{ id := idv
                     role := jsOr pm.role (Json.str "assistant")
                     content := pm.content
                     toolResults := some pm.toolResults }] }
              | some i =>
                match rs.chat.messages.get? i with
                | some m =>
                  let m2 := { m with content := pm.content }
                  { rs.chat with messages := rs.chat.messages.set i m2 }
                | none => rs.chat
            else rs.chat
          | none => rs.chat
        | none => rs.chat
      .ok { rs with ma := r.1, chat := chat }
    else if t = "TEXT_MESSAGE_END" then
      let r := rs.ma.handleEvent (freshName rs.nextFresh) e
      .ok { rs with ma := r.1 }
    else if t = "TEXT_MESSAGE_CHUNK" then
      let r := rs.ma.handleEvent (freshName rs.nextFresh) e
      let chat :=
        match r.2 with
        | some pm =>
          match pm.id with
          | some idv =>
            if jsTruthy idv then
              match jsFindIndex (fun m => jsonBeq m.id idv) rs.chat.messages with
              | none => { rs.chat with messages := rs.chat.messages ++
                  [{ id := idv
                     role := jsOr pm.role (Json.str "assistant")
                     content := pm.content
                     toolResults := some [] }] }
              | some i =>
                match rs.chat.messages.get? i with
                | some m =>
                  let m2 := { m with content := pm.content }
                  { rs.chat with messages := rs.chat.messages.set i m2 }
                | none => rs.chat
            else rs.chat
          | none => rs.chat
        | none => rs.chat
      let consumed := if jsTruthyU (jfield e "messageId") then rs.nextFresh
                      else rs.nextFresh + 1
      .ok { rs with ma := r.1, chat := chat, nextFresh := consumed }
    else if t = "TOOL_CALL_START" then
      let r := rs.ta.handleEvent e
      let chat :=
        match r.2 with
        | some ptc =>
          match ptc.id with
          | some idv =>
            if jsTruthy idv then
              match ToolCallAccumulator.getParentMessageId e with
              | some pmid =>
                if jsTruthy pmid then
                  { rs.chat with messages :=
                    updateMessageAt rs.chat.messages pmid (fun m =>
                      let trs := match m.toolResults with
                                 | some l => l
                                 | none => []
                      { m with toolResults := some (trs ++
                        [{ id := idv
                           toolName := jsOrD ptc.toolName (Json.str "")
                           input := ptc.input
                           output := jsOrD ptc.output (Json.str "")
                           status := Json.str "pending" }]) }) }
                else rs.chat
              | none => rs.chat
            else rs.chat
          | none => rs.chat
        | none => rs.chat
      .ok { rs with ta := r.1, chat := chat }
    else if t = "TOOL_CALL_ARGS" then
      let r := rs.ta.handleEvent e
      let chat :=
        match r.2 with
        | some ptc =>
          if jsTruthyU ptc.id then
            { rs.chat with messages :=
              updateToolResult rs.chat.messages ptc.id (fun t2 =>
                { t2 with input := ptc.input }) }
          else rs.chat
        | none => rs.chat
      .ok { rs with ta := r.1, chat := chat }
    else if t = "TOOL_CALL_END" then .ok rs
    else if t = "TOOL_CALL_RESULT" then
      let r := rs.ta.handleEvent e
      let chat :=
        match r.2 with
        | some ptc =>
          if jsTruthyU ptc.id then
            { rs.chat with messages :=
              updateToolResult rs.chat.messages ptc.id (fun t2 =>
                { t2 with
                  output := jsOrD ptc.output (Json.str "")
                  status := jsOr ptc.status (Json.str "success") }) }
          else rs.chat
        | none => rs.chat
      .ok { rs with ta := r.1, chat := chat }
    else if t = "STATE_SNAPSHOT" then
      .ok { rs with chat := { rs.chat with
        agentState := some (jsOrD (jfield e "state") (Json.obj [])) } }
    else if t = "STATE_DELTA" then
      if jsTruthyU rs.chat.agentState then
        match rs.chat.agentState with
        | some prev =>
          match jfield e "delta" with
          | some d =>
            match applyStateDelta prev d with
            | .ok v =>
              .ok { rs with chat := { rs.chat with agentState := some v } }
            | .error m => .error m
          | none => .error "TypeError: delta is not iterable"
        | none => .ok rs
      else
        .ok { rs with chat := { rs.chat with agentState := jfield e "delta" } }
    else .ok rs
  | _ => .ok rs

/-- Process the events of one chunk strictly in order; an exception stops
the loop, keeping the state reached so far (Solid signals are not rolled
back). -/
def runEvents (events : List Json) (rs : RunState) :
    RunState × Option String :=
  match events with
  | [] => (rs, none)
  | e :: rest =>
    match handleAGUIEvent e rs with
    | .ok rs2 => runEvents rest rs2
    | .error m => (rs, some m)

/-- The `while` read loop of `sendMessage`: parse each chunk with the
threaded SSE buffer and dispatch its events. -/
def runLoop (chunks : List (List Char)) (rs : RunState) (buf : List Char) :
    RunState × Option String :=
  match chunks with
  | [] => (rs, none)
  | c :: rest =>
    let p := parseSSEChunk buf c
    match runEvents p.1 rs with
    | (rs2, none) => runLoop rest rs2 p.2
    | (rs2, some m) => (rs2, some m)

/-- The synchronous part of `sendMessage` before the first `await`: the
guard `if (!content.trim() || isStreaming()) return`, then `addMessage`
of the user message, `setIsStreaming(true)`, `setError(null)`.  Returns
`none` when the guard rejects the call. -/
def sendStart (chat : ChatState) (content : String) (fresh : String) :
    Option ChatState :=
  if String.mk (trimChars content.data) = "" || chat.isStreaming then none
  else some { chat with
    messages := chat.messages ++
      [{ id := Json.str fresh
         role := Json.str "user"
         content := content
         toolResults := none }]
    isStreaming := true
    error := none }

/-- `sendMessage` on a transport that responds OK with the given body
chunks.  The returned flag records whether the `fetch` was performed.
`catch` sets the error from the thrown message; `finally` clears
`isStreaming`. -/
def sendMessage (chat : ChatState) (content : String) (fresh : String)
    (chunks : List (List Char)) : ChatState × Bool :=
  match sendStart chat content fresh with
  | none => (chat, false)
  | some chat1 =>
    let rs0 : RunState := { ma := ⟨[]⟩, ta := ⟨[]⟩, chat := chat1, nextFresh := 0 }
    let r := runLoop chunks rs0 []
    let chatFinal :=
      match r.2 with
      | none => r.1.chat
      | some m => { r.1.chat with error := some (Json.str m) }
    ({ chatFinal with isStreaming := false }, true)

/-! ## Machinery for the chunk-boundary-independence proof: a character
machine equivalent to `parseSSEChunk`. -/

/-- One character of the line machine: a newline flushes the pending line
through `processLine`, any other character is buffered. -/
def sseStep (st : List Json × List Char) (c : Char) : List Json × List Char :=
  if c = '\n' then (st.1 ++ processLine st.2, []) else (st.1, st.2 ++ [c])

/-- Run the line machine from a given state. -/
def sseRunFrom (st : List Json × List Char) (s : List Char) :
    List Json × List Char :=
  s.foldl sseStep st

/-- Append a character to the last line of a split result. -/
def appendLast : List (List Char) → Char → List (List Char)
  | [], c => [[c]]
  | [l], c => [l ++ [c]]
  | l :: ls, c => l :: appendLast ls c

/-! ## Concrete protocol vectors used by the witnesses and
counterexamples. -/

/-- A `TEXT_MESSAGE_CONTENT` event whose `messageId` has no entry. -/
def exContentEvent : Json :=
  Json.obj [("type", Json.str "TEXT_MESSAGE_CONTENT"),
            ("messageId", Json.str "msg-1"),
            ("delta", Json.str "Hello")]

/-- A `RUN_ERROR` event with message `"Agent failed"`. -/
def exRunErrorEvent : Json :=
  Json.obj [("type", Json.str "RUN_ERROR"),
            ("message", Json.str "Agent failed")]

/-- An SSE response whose records are a `RUN_ERROR` followed by a
`STEP_FINISHED` — an event occurring after the error in the same
response. -/
def exRunErrorStream : List Char :=
  ("data: \x7b\"type\":\"RUN_ERROR\",\"message\":\"Agent failed\"\x7d\n\n" ++
   "data: \x7b\"type\":\"STEP_FINISHED\",\"stepName\":\"s1\"\x7d\n\n").data

/-- An SSE response with a malformed record followed by `RUN_FINISHED`. -/
def exMalformedStream : List Char :=
  ("data: \x7binvalid\x7d\n\n" ++
   "data: \x7b\"type\":\"RUN_FINISHED\"\x7d\n\n").data

/-- The spec's message accumulation example
START(id,role) · CONTENT(id,"Hello") · CONTENT(id,", ") ·
CONTENT(id,"world!") · END(id). -/
def helloWorldEvents (id role : String) : List Json :=
  [Json.obj [("type", Json.str "TEXT_MESSAGE_START"),
             ("messageId", Json.str id), ("role", Json.str role)],
   Json.obj [("type", Json.str "TEXT_MESSAGE_CONTENT"),
             ("messageId", Json.str id), ("delta", Json.str "Hello")],
   Json.obj [("type", Json.str "TEXT_MESSAGE_CONTENT"),
             ("messageId", Json.str id), ("delta", Json.str ", ")],
   Json.obj [("type", Json.str "TEXT_MESSAGE_CONTENT"),
             ("messageId", Json.str id), ("delta", Json.str "world!")],
   Json.obj [("type", Json.str "TEXT_MESSAGE_END"),
             ("messageId", Json.str id)]]

/-- START(tc1,"search",parentMsg). -/
def toolStartEvent : Json :=
  Json.obj [("type", Json.str "TOOL_CALL_START"),
            ("toolCallId", Json.str "tc1"),
            ("toolCallName", Json.str "search"),
            ("parentMessageId", Json.str "parentMsg")]

/-- ARGS(tc1,'\x7b"query":"test"\x7d'). -/
def toolArgsEvent : Json :=
  Json.obj [("type", Json.str "TOOL_CALL_ARGS"),
            ("toolCallId", Json.str "tc1"),
            ("args", Json.str "\x7b\"query\":\"test\"\x7d")]

/-- END(tc1). -/
def toolEndEvent : Json :=
  Json.obj [("type", Json.str "TOOL_CALL_END"),
            ("toolCallId", Json.str "tc1")]

/-- RESULT(tc1,"Found 5 results","success"). -/
def toolResultEvent : Json :=
  Json.obj [("type", Json.str "TOOL_CALL_RESULT"),
            ("toolCallId", Json.str "tc1"),
            ("result", Json.str "Found 5 results"),
            ("status", Json.str "success")]

/-- The spec's tool-call example: START(tc1,"search",parentMsg) ·
ARGS(tc1,'\x7b"query":"test"\x7d') · END(tc1) ·
RESULT(tc1,"Found 5 results","success"). -/
def toolCallEvents : List Json :=
  [toolStartEvent, toolArgsEvent, toolEndEvent, toolResultEvent]

/-- The tool result the spec expects from `toolCallEvents`. -/
def expectedToolResult : ToolResult :=
  { id := Json.str "tc1"
    toolName := Json.str "search"
    input := [("query", Json.str "test")]
    output := Json.str "Found 5 results"
    status := Json.str "success" }

/-- The spec's snapshot example `\x7bcounter:0, mode:"active"\x7d`. -/
def exSnapshotState : Json :=
  Json.obj [("counter", Json.num 0), ("mode", Json.str "active")]

/-- The spec's delta example `[\x7bop:"replace", path:"/counter", value:1\x7d]`. -/
def exReplaceDelta : Json :=
  Json.arr [Json.obj [("op", Json.str "replace"),
                      ("path", Json.str "/counter"),
                      ("value", Json.num 1)]]

/-- An unsupported `move` operation with a well-formed path. -/
def exMoveOp : Json :=
  Json.obj [("op", Json.str "move"),
            ("path", Json.str "/a"),
            ("from", Json.str "/b")]

/-- A `STATE_DELTA` event carrying `exReplaceDelta`. -/
def exStateDeltaEvent : Json :=
  Json.obj [("type", Json.str "STATE_DELTA"), ("delta", exReplaceDelta)]

/-- An idle run state over the initial hook state. -/
def exIdleRun : RunState :=
  { ma := ⟨[]⟩, ta := ⟨[]⟩, chat := initialChatState, nextFresh := 0 }

/-- The hook state right after `sendStart initialChatState "Hi" "u0"`. -/
def exStartedChat : ChatState :=
  { initialChatState with
    messages := [{ id := Json.str "u0"
                   role := Json.str "user"
                   content := "Hi"
                   toolResults := none }]
    isStreaming := true
    error := none }

/-- The `Partial<ToolResult>` created by `handleStart` for `toolStartEvent`. -/
def tcStart : PartialToolResult :=
  { id := some (Json.str "tc1")
    toolName := some (Json.str "search")
    input := []
    output := some (Json.str "")
    status := Json.str "pending" }

/-- `tcStart` after the ARGS merge. -/
def tcArgs : PartialToolResult :=
  { tcStart with input := [("query", Json.str "test")] }

/-- The pending published tool result attached on `toolStartEvent`. -/
def trPending : ToolResult :=
  { id := Json.str "tc1"
    toolName := Json.str "search"
    input := []
    output := Json.str ""
    status := Json.str "pending" }

/-- `trPending` after the ARGS update. -/
def trArgs : ToolResult :=
  { trPending with input := [("query", Json.str "test")] }

/-- `tcArgs` after the RESULT update. -/
def tcDone : PartialToolResult :=
  { tcArgs with output := some (Json.str "Found 5 results")
                status := Json.str "success" }

/-- An ARGS event whose payload is not valid JSON. -/
def exBadArgsEvent : Json :=
  Json.obj [("type", Json.str "TOOL_CALL_ARGS"),
            ("toolCallId", Json.str "tc1"),
            ("args", Json.str "\x7binvalid")]

/-- A tool-call accumulator holding the `tc1` entry. -/
def exAccWithTc : ToolCallAccumulator :=
  ⟨[(some (Json.str "tc1"), tcStart)]⟩

/-- A supported `add` operation, used after the unsupported one. -/
def exAddOp : Json :=
  Json.obj [("op", Json.str "add"),
            ("path", Json.str "/status"),
            ("value", Json.str "running")]

/-- A run state that already holds an agent-state snapshot. -/
def exStatefulRun : RunState :=
  { ma := ⟨[]⟩, ta := ⟨[]⟩,
    chat := { initialChatState with agentState := some exSnapshotState },
    nextFresh := 0 }

/-- A published parent message with id "parentMsg" and no tool results. -/
def exParentMsg : Message :=
  { id := Json.str "parentMsg"
    role := Json.str "assistant"
    content := "Hi there"
    toolResults := some [] }

/-- A run state whose published messages hold only `exParentMsg`. -/
def exToolRun : RunState :=
  { ma := ⟨[]⟩, ta := ⟨[]⟩,
    chat := { initialChatState with messages := [exParentMsg] },
    nextFresh := 0 }

/-! ## Lemmas about line splitting and the line machine -/

theorem processLine_nil : processLine [] = [] := rfl

theorem splitChar_ne_nil (sep : Char) (s : List Char) : splitChar sep s ≠ [] := by
  cases s with
  | nil => simp [splitChar]
  | cons c rest =>
    rw [splitChar]
    by_cases h : c = sep
    · simp [h]
    · simp only [if_neg h]
      cases splitChar sep rest <;> simp

theorem splitChar_append_sep (sep : Char) (s : List Char) :
    splitChar sep (s ++ [sep]) = splitChar sep s ++ [[]] := by
  induction s with
  | nil => simp [splitChar]
  | cons c rest ih =>
    by_cases h : c = sep
    · subst h
      show splitChar c (c :: (rest ++ [c])) = splitChar c (c :: rest) ++ [[]]
      rw [splitChar, if_pos rfl, ih, splitChar, if_pos rfl]
      rfl
    · show splitChar sep (c :: (rest ++ [sep])) = splitChar sep (c :: rest) ++ [[]]
      rw [splitChar, if_neg h, ih, splitChar, if_neg h]
      obtain ⟨l, ls, hl⟩ := List.exists_cons_of_ne_nil (splitChar_ne_nil sep rest)
      rw [hl]
      simp

theorem appendLast_ne_nil (L : List (List Char)) (c : Char) :
    appendLast L c ≠ [] := by
  cases L with
  | nil => simp [appendLast]
  | cons l ls => cases ls <;> simp [appendLast]

theorem splitChar_append_other (sep c : Char) (h : c ≠ sep) (s : List Char) :
    splitChar sep (s ++ [c]) = appendLast (splitChar sep s) c := by
  induction s with
  | nil =>
    show splitChar sep [c] = appendLast [[]] c
    rw [splitChar, if_neg h]
    rfl
  | cons x rest ih =>
    by_cases hx : x = sep
    · subst hx
      show splitChar x (x :: (rest ++ [c])) =
        appendLast (splitChar x (x :: rest)) c
      rw [splitChar, if_pos rfl, ih, splitChar, if_pos rfl]
      obtain ⟨l, ls, hl⟩ := List.exists_cons_of_ne_nil (splitChar_ne_nil x rest)
      rw [hl]
      rfl
    · show splitChar sep (x :: (rest ++ [c])) =
        appendLast (splitChar sep (x :: rest)) c
      rw [splitChar, if_neg hx, ih, splitChar, if_neg hx]
      obtain ⟨l, ls, hl⟩ := List.exists_cons_of_ne_nil (splitChar_ne_nil sep rest)
      rw [hl]
      cases ls with
      | nil => rfl
      | cons l2 ls2 => rfl

theorem appendLast_dropLast (L : List (List Char)) (c : Char) (h : L ≠ []) :
    (appendLast L c).dropLast = L.dropLast := by
  induction L with
  | nil => exact absurd rfl h
  | cons l ls ih =>
    cases ls with
    | nil => simp [appendLast]
    | cons l2 ls2 =>
      have h2 : l2 :: ls2 ≠ [] := by simp
      have e : appendLast (l :: l2 :: ls2) c = l :: appendLast (l2 :: ls2) c := rfl
      rw [e, List.dropLast_cons_of_ne_nil (appendLast_ne_nil (l2 :: ls2) c),
          List.dropLast_cons_of_ne_nil h2, ih h2]

theorem appendLast_getLast (L : List (List Char)) (c : Char) :
    (appendLast L c).getLast?.getD [] = (L.getLast?.getD []) ++ [c] := by
  induction L with
  | nil => simp [appendLast]
  | cons l ls ih =>
    cases ls with
    | nil => simp [appendLast]
    | cons l2 ls2 =>
      have e : appendLast (l :: l2 :: ls2) c = l :: appendLast (l2 :: ls2) c := rfl
      rw [e]
      obtain ⟨a, as, ha⟩ := List.exists_cons_of_ne_nil
        (appendLast_ne_nil (l2 :: ls2) c)
      rw [ha, List.getLast?_cons_cons, ← ha, ih, List.getLast?_cons_cons]

theorem splitChar_no_sep (sep : Char) (s : List Char) :
    ∀ l ∈ splitChar sep s, sep ∉ l := by
  induction s with
  | nil =>
    intro l hl
    rw [splitChar] at hl
    rcases List.mem_cons.mp hl with rfl | hmem
    · simp
    · simp at hmem
  | cons c rest ih =>
    intro l hl
    by_cases h : c = sep
    · subst h
      rw [splitChar, if_pos rfl] at hl
      rcases List.mem_cons.mp hl with rfl | hmem
      · simp
      · exact ih l hmem
    · rw [splitChar, if_neg h] at hl
      obtain ⟨a, as, ha⟩ := List.exists_cons_of_ne_nil (splitChar_ne_nil sep rest)
      rw [ha] at hl
      rcases List.mem_cons.mp hl with rfl | hmem
      · intro hc
        rcases List.mem_cons.mp hc with hc2 | hc2
        · exact h hc2.symm
        · exact ih a (ha ▸ List.mem_cons_self a as) hc2
      · exact ih l (ha ▸ List.mem_cons_of_mem a hmem)

theorem sseRunFrom_nil (st : List Json × List Char) : sseRunFrom st [] = st := rfl

theorem sseRunFrom_cons (st : List Json × List Char) (c : Char) (s : List Char) :
    sseRunFrom st (c :: s) = sseRunFrom (sseStep st c) s := rfl

theorem sseRunFrom_append (st : List Json × List Char) (s t : List Char) :
    sseRunFrom st (s ++ t) = sseRunFrom (sseRunFrom st s) t := by
  simp [sseRunFrom, List.foldl_append]

theorem sseRunFrom_events (t : List Char) :
    ∀ (e : List Json) (b : List Char),
      sseRunFrom (e, b) t =
        (e ++ (sseRunFrom ([], b) t).1, (sseRunFrom ([], b) t).2) := by
  induction t with
  | nil => intro e b; simp [sseRunFrom_nil]
  | cons c t ih =>
    intro e b
    rw [sseRunFrom_cons, sseRunFrom_cons]
    by_cases hc : c = '\n'
    · subst hc
      rw [show sseStep (e, b) '\n' = (e ++ processLine b, []) from rfl,
          show sseStep (([] : List Json), b) '\n' = (processLine b, []) from by
            simp [sseStep]]
      rw [ih (e ++ processLine b) [], ih (processLine b) []]
      simp
    · rw [show sseStep (e, b) c = (e, b ++ [c]) from by simp [sseStep, hc],
          show sseStep (([] : List Json), b) c = ([], b ++ [c]) from by
            simp [sseStep, hc]]
      exact ih e (b ++ [c])

theorem sseRunFrom_no_nl (b : List Char) (hb : '\n' ∉ b) :
    ∀ (e : List Json) (a : List Char), sseRunFrom (e, a) b = (e, a ++ b) := by
  induction b with
  | nil => intro e a; simp [sseRunFrom_nil]
  | cons c b ih =>
    intro e a
    have hc : c ≠ '\n' := fun h => hb (h ▸ List.mem_cons_self c b)
    rw [sseRunFrom_cons,
        show sseStep (e, a) c = (e, a ++ [c]) from by simp [sseStep, hc]]
    rw [ih (fun h => hb (List.mem_cons_of_mem c h)) e (a ++ [c])]
    simp

theorem parseSSEChunk_pos (s : List Char) (h : s.getLast? = some '\n') :
    parseSSEChunk [] s = (((splitChar '\n' s).map processLine).flatten, []) := by
  simp [parseSSEChunk, h]

theorem parseSSEChunk_neg (s : List Char) (h : ¬ s.getLast? = some '\n') :
    parseSSEChunk [] s =
      ((((splitChar '\n' s).dropLast).map processLine).flatten,
        (splitChar '\n' s).getLast?.getD []) := by
  simp [parseSSEChunk, h]

theorem splitChar_end_sep (sep : Char) (s : List Char)
    (h : s.getLast? = some sep) :
    splitChar sep s = (splitChar sep s).dropLast ++ [[]] := by
  have hne : s ≠ [] := by intro hs; rw [hs] at h; simp at h
  have hlast : s.getLast hne = sep := by
    have h2 := List.getLast?_eq_getLast s hne
    rw [h] at h2
    exact (Option.some_injective _ h2.symm)
  have hs : s.dropLast ++ [sep] = s := by
    rw [← hlast]; exact List.dropLast_append_getLast hne
  conv_lhs => rw [← hs]
  rw [splitChar_append_sep]
  congr 1
  conv_rhs => rw [← hs, splitChar_append_sep]
  simp

theorem parseSSEChunk_eq_run (s : List Char) :
    parseSSEChunk [] s = sseRunFrom ([], []) s := by
  induction s using List.reverseRecOn with
  | nil => rfl
  | append_singleton s c ih =>
    rw [sseRunFrom_append, ← ih,
        show ∀ st, sseRunFrom st [c] = sseStep st c from fun _ => rfl]
    have hlast : (s ++ [c]).getLast? = some c := List.getLast?_concat s
    by_cases hc : c = '\n'
    · subst hc
      rw [parseSSEChunk_pos (s ++ ['\n']) hlast, splitChar_append_sep]
      by_cases hs : s.getLast? = some '\n'
      · rw [parseSSEChunk_pos s hs]
        simp [sseStep, processLine_nil]
      · rw [parseSSEChunk_neg s hs]
        have hne := splitChar_ne_nil '\n' s
        have hgl : (splitChar '\n' s).getLast?.getD [] =
            (splitChar '\n' s).getLast hne := by
          rw [List.getLast?_eq_getLast _ hne]
          rfl
        simp only [sseStep, if_pos rfl, hgl]
        conv_lhs => rw [← List.dropLast_append_getLast hne]
        simp [processLine_nil]
    · have htr : ¬ (s ++ [c]).getLast? = some '\n' := by
        rw [hlast]
        simp [hc]
      rw [parseSSEChunk_neg (s ++ [c]) htr, splitChar_append_other '\n' c hc,
          appendLast_dropLast _ _ (splitChar_ne_nil '\n' s), appendLast_getLast]
      by_cases hs : s.getLast? = some '\n'
      · rw [parseSSEChunk_pos s hs]
        have hsplit := splitChar_end_sep '\n' s hs
        simp only [sseStep, if_neg hc]
        rw [hsplit]
        simp [processLine_nil, List.getLast?_concat]
      · rw [parseSSEChunk_neg s hs]
        simp [sseStep, hc]

theorem parseSSEChunk_buffer_no_nl (s : List Char) :
    '\n' ∉ (parseSSEChunk [] s).2 := by
  by_cases hs : s.getLast? = some '\n'
  · rw [parseSSEChunk_pos s hs]
    simp
  · rw [parseSSEChunk_neg s hs]
    have hne := splitChar_ne_nil '\n' s
    have hgl : (splitChar '\n' s).getLast?.getD [] =
        (splitChar '\n' s).getLast hne := by
      rw [List.getLast?_eq_getLast _ hne]
      rfl
    show '\n' ∉ (splitChar '\n' s).getLast?.getD []
    rw [hgl]
    exact splitChar_no_sep '\n' s _ (List.getLast_mem hne)

theorem parseSSEChunk_comp (s t : List Char) :
    parseSSEChunk [] (s ++ t) =
      ((parseSSEChunk [] s).1 ++ (parseSSEChunk (parseSSEChunk [] s).2 t).1,
        (parseSSEChunk (parseSSEChunk [] s).2 t).2) := by
  have hb := parseSSEChunk_buffer_no_nl s
  rw [parseSSEChunk_eq_run s] at hb
  have h1 : parseSSEChunk (parseSSEChunk [] s).2 t
      = parseSSEChunk [] ((parseSSEChunk [] s).2 ++ t) := rfl
  rw [h1, parseSSEChunk_eq_run, parseSSEChunk_eq_run, parseSSEChunk_eq_run,
      sseRunFrom_append]
  have heta : sseRunFrom (sseRunFrom ([], []) s) t
      = sseRunFrom ((sseRunFrom ([], []) s).1, (sseRunFrom ([], []) s).2) t := by
    rw [Prod.mk.eta]
  rw [heta, sseRunFrom_events]
  have hB : sseRunFrom ([], (sseRunFrom ([], []) s).2) t
      = sseRunFrom ([], []) ((sseRunFrom ([], []) s).2 ++ t) := by
    rw [sseRunFrom_append, sseRunFrom_no_nl _ hb]
    simp
  rw [hB]

theorem foldSSE_concat (chunks : List (List Char)) :
    foldSSE chunks = parseSSEChunk [] chunks.flatten := by
  induction chunks using List.reverseRecOn with
  | nil => rfl
  | append_singleton cs c ih =>
    have hstep : foldSSE (cs ++ [c]) =
        ((foldSSE cs).1 ++ (parseSSEChunk (foldSSE cs).2 c).1,
          (parseSSEChunk (foldSSE cs).2 c).2) := by
      show (cs ++ [c]).foldl _ ([], []) = _
      rw [List.foldl_append]
      rfl
    rw [hstep, ih, show (cs ++ [c]).flatten = cs.flatten ++ c from by simp,
        parseSSEChunk_comp]

/-! ## Lemmas about the keyed maps and the JS list helpers -/

theorem mapGet_mapSet_self (m : List (Option Json × α)) (k : Option Json)
    (v : α) (hk : keyBeq k k = true) : mapGet (mapSet m k v) k = some v := by
  induction m with
  | nil => simp [mapSet, mapGet, hk]
  | cons p rest ih =>
    rw [mapSet]
    by_cases h : keyBeq p.1 k = true
    · rw [if_pos h, mapGet, if_pos h]
    · rw [if_neg h, mapGet, if_neg h]
      exact ih

theorem mapSet_self_of_get (m : List (Option Json × α)) (k : Option Json)
    (v : α) (h : mapGet m k = some v) : mapSet m k v = m := by
  induction m with
  | nil => rw [mapGet] at h; exact Option.noConfusion h
  | cons p rest ih =>
    rw [mapGet] at h
    rw [mapSet]
    by_cases hp : keyBeq p.1 k = true
    · rw [if_pos hp] at h
      rw [if_pos hp, ← Option.some_injective _ h]
    · rw [if_neg hp] at h
      rw [if_neg hp, ih h]

theorem jsFindIndex_none (p : α → Bool) (l : List α)
    (h : ∀ a ∈ l, p a = false) : jsFindIndex p l = none := by
  induction l with
  | nil => rfl
  | cons a l ih =>
    rw [jsFindIndex, if_neg (by simp [h a (List.mem_cons_self a l)]),
        ih (fun b hb => h b (List.mem_cons_of_mem a hb))]
    rfl

theorem jsFindIndex_append_first (p : α → Bool) (l1 l2 : List α) (x : α)
    (h1 : ∀ a ∈ l1, p a = false) (hx : p x = true) :
    jsFindIndex p (l1 ++ x :: l2) = some l1.length := by
  induction l1 with
  | nil => simp [jsFindIndex, hx]
  | cons a l1 ih =>
    rw [List.cons_append, jsFindIndex,
        if_neg (by simp [h1 a (List.mem_cons_self a l1)]),
        ih (fun b hb => h1 b (List.mem_cons_of_mem a hb))]
    rfl

theorem get?_append_len (l1 l2 : List α) (x : α) :
    (l1 ++ x :: l2).get? l1.length = some x := by
  induction l1 with
  | nil => rfl
  | cons a l1 ih => simpa using ih

theorem set_append_len (l1 l2 : List α) (x y : α) :
    (l1 ++ x :: l2).set l1.length y = l1 ++ y :: l2 := by
  induction l1 with
  | nil => rfl
  | cons a l1 ih => simp [List.set, ih]

theorem map_id_of_mem (f : α → α) (l : List α) (h : ∀ a ∈ l, f a = a) :
    l.map f = l := by
  induction l with
  | nil => rfl
  | cons a l ih =>
    rw [List.map_cons, h a (List.mem_cons_self a l),
        ih (fun b hb => h b (List.mem_cons_of_mem a hb))]

theorem updateMessageAt_split (msgs1 msgs2 : List Message) (m : Message)
    (target : Json) (f : Message → Message)
    (h1 : ∀ m2 ∈ msgs1, jsonBeq m2.id target = false)
    (h2 : jsonBeq m.id target = true) :
    updateMessageAt (msgs1 ++ m :: msgs2) target f = msgs1 ++ f m :: msgs2 := by
  simp only [updateMessageAt,
    jsFindIndex_append_first _ msgs1 msgs2 m (fun a ha => h1 a ha) h2,
    get?_append_len, set_append_len]

theorem updateToolResultOne_miss (target : Option Json)
    (f : ToolResult → ToolResult) (m : Message)
    (h : ∀ trs, m.toolResults = some trs →
      ∀ t ∈ trs, keyBeq (some t.id) target = false) :
    updateToolResultOne target f m = m := by
  cases hm : m.toolResults with
  | none => simp only [updateToolResultOne, hm]
  | some trs =>
    simp only [updateToolResultOne, hm, jsFindIndex_none _ _ (h trs hm)]

theorem updateToolResultOne_hit (target : Option Json)
    (f : ToolResult → ToolResult) (m : Message) (trs1 : List ToolResult)
    (t : ToolResult) (hm : m.toolResults = some (trs1 ++ [t]))
    (h1 : ∀ t2 ∈ trs1, keyBeq (some t2.id) target = false)
    (ht : keyBeq (some t.id) target = true) :
    updateToolResultOne target f m =
      { m with toolResults := some (trs1 ++ [f t]) } := by
  simp only [updateToolResultOne, hm,
    jsFindIndex_append_first _ trs1 [] t h1 ht, get?_append_len,
    set_append_len]

theorem runEvents_cons_ok (e : Json) (rest : List Json) (rs rs2 : RunState)
    (h : handleAGUIEvent e rs = .ok rs2) :
    runEvents (e :: rest) rs = runEvents rest rs2 := by
  rw [runEvents, h]

theorem updateToolResult_split (msgs1 msgs2 : List Message) (m : Message)
    (trs1 : List ToolResult) (t : ToolResult) (target : Option Json)
    (f : ToolResult → ToolResult)
    (hm : m.toolResults = some (trs1 ++ [t]))
    (hmiss1 : ∀ m2 ∈ msgs1, ∀ trs, m2.toolResults = some trs →
      ∀ t2 ∈ trs, keyBeq (some t2.id) target = false)
    (hmiss2 : ∀ m2 ∈ msgs2, ∀ trs, m2.toolResults = some trs →
      ∀ t2 ∈ trs, keyBeq (some t2.id) target = false)
    (hpre : ∀ t2 ∈ trs1, keyBeq (some t2.id) target = false)
    (ht : keyBeq (some t.id) target = true) :
    updateToolResult (msgs1 ++ m :: msgs2) target f =
      msgs1 ++ { m with toolResults := some (trs1 ++ [f t]) } :: msgs2 := by
  rw [updateToolResult, List.map_append, List.map_cons]
  rw [map_id_of_mem _ msgs1 (fun a ha => updateToolResultOne_miss _ _ _ (hmiss1 a ha)),
      map_id_of_mem _ msgs2 (fun a ha => updateToolResultOne_miss _ _ _ (hmiss2 a ha)),
      updateToolResultOne_hit target f m trs1 t hm hpre ht]

/-! ## Claim theorems -/

/-- Claim C2: for every fixed stream text and every way of partitioning it
into chunks, folding `parseSSEChunk` over the chunks (threading the
returned buffer) emits the same event sequence and the same trailing
buffer as parsing the whole text in one call — so no data is discarded,
no record is emitted twice, and the result is chunk-boundary
independent. -/
theorem sse_chunk_boundary_independence :
    (∀ chunks : List (List Char),
      foldSSE chunks = parseSSEChunk [] chunks.flatten) ∧
    (∀ chunks1 chunks2 : List (List Char), chunks1.flatten = chunks2.flatten →
      foldSSE chunks1 = foldSSE chunks2) := by
  refine ⟨foldSSE_concat, ?_⟩
  intro c1 c2 h
  rw [foldSSE_concat, foldSSE_concat, h]

/-- Witness for C2 at a concrete split of a RUN_FINISHED record. -/
theorem sse_chunk_boundary_independence_witness :
    foldSSE ["data: \x7b\"type\":\"RU".data, "N_FINISHED\"\x7d\n\n".data] =
      foldSSE ["data: \x7b\"type\":\"RUN_FINISHED\"\x7d\n\n".data] :=
  sse_chunk_boundary_independence.2 _ _ rfl

/-- Claim C1 (counterexample): after the RUN_ERROR record of
`exRunErrorStream` sets the error, the following STEP_FINISHED record in
the same response is still applied — `completedSteps` ends as
`["s1"]`, not `[]` as the claim would require. -/
theorem run_error_does_not_terminate_processing :
    (sendMessage initialChatState "Hi" "u0" [exRunErrorStream]).1.error
        = some (Json.str "Agent failed") ∧
    (sendMessage initialChatState "Hi" "u0" [exRunErrorStream]).1.completedSteps
        = [some (Json.str "s1")] :=
  ⟨rfl, rfl⟩

/-- Claim C1 (amended): processing a RUN_ERROR event with non-empty
message `msg` publishes exactly that error and changes nothing else, and
once a send passes the guard, `isStreaming` is false after the stream
ends; however, the read loop is not stopped, so events after the
RUN_ERROR in the same response are still applied
(see `run_error_does_not_terminate_processing`). -/
theorem run_error_sets_error_and_stream_end_clears_streaming :
    (∀ (e : Json) (rs : RunState) (msg : String),
      jfield e "type" = some (Json.str "RUN_ERROR") →
      jfield e "message" = some (Json.str msg) → msg ≠ "" →
      handleAGUIEvent e rs =
        .ok { rs with chat := { rs.chat with error := some (Json.str msg) } }) ∧
    (∀ (chat : ChatState) (content fresh : String) (chunks : List (List Char))
      (st1 : ChatState), sendStart chat content fresh = some st1 →
      (sendMessage chat content fresh chunks).1.isStreaming = false) := by
  constructor
  · intro e rs msg ht hm hne
    simp [handleAGUIEvent, ht, hm, jsOrD, jsOr, jsTruthy, hne]
  · intro chat content fresh chunks st1 h
    simp only [sendMessage, h]

/-- Witness for the amended C1 at the concrete RUN_ERROR event and a
concrete completed send. -/
theorem run_error_sets_error_witness :
    handleAGUIEvent exRunErrorEvent exIdleRun =
      .ok { exIdleRun with chat :=
        { exIdleRun.chat with error := some (Json.str "Agent failed") } } ∧
    (sendMessage initialChatState "Hi" "u0" []).1.isStreaming = false :=
  ⟨run_error_sets_error_and_stream_end_clears_streaming.1
      exRunErrorEvent exIdleRun "Agent failed" rfl rfl (by decide),
    run_error_sets_error_and_stream_end_clears_streaming.2
      initialChatState "Hi" "u0" [] exStartedChat rfl⟩

/-- Claim C3 (counterexample): a TEXT_MESSAGE_CONTENT event whose
`messageId` has no entry does not create one — `handleContent` returns
`null` and the map stays empty, contradicting the claimed implicit
START. -/
theorem content_without_start_creates_no_entry :
    MessageAccumulator.handleEvent ⟨[]⟩ "uuid-0" exContentEvent = (⟨[]⟩, none) ∧
    (MessageAccumulator.handleEvent ⟨[]⟩ "uuid-0" exContentEvent).1.getMessage
        (some (Json.str "msg-1")) = none :=
  ⟨rfl, rfl⟩

/-- Claim C3 (amended): a TEXT_MESSAGE_CONTENT event whose `messageId`
has no entry in the message accumulator is a no-op: no entry is created,
the handler returns `null`, and the orchestrator leaves the published
state unchanged. -/
theorem content_without_start_is_noop :
    ∀ (e : Json) (rs : RunState),
      jfield e "type" = some (Json.str "TEXT_MESSAGE_CONTENT") →
      mapGet rs.ma.messages (jfield e "messageId") = none →
      handleAGUIEvent e rs = .ok rs := by
  intro e rs ht hm
  simp [handleAGUIEvent, ht, MessageAccumulator.handleEvent,
    MessageAccumulator.handleContent, hm]

/-- Witness for the amended C3 at the concrete CONTENT event. -/
theorem content_without_start_is_noop_witness :
    handleAGUIEvent exContentEvent exIdleRun = .ok exIdleRun :=
  content_without_start_is_noop exContentEvent exIdleRun rfl rfl

/-- Claim C4: folding START(id,role) · CONTENT(id,"Hello") ·
CONTENT(id,", ") · CONTENT(id,"world!") · END(id) through the message
accumulator yields a message with that id and role whose content is the
concatenation "Hello, world!" (for the protocol's non-empty ids and
roles). -/
theorem accumulate_message_hello_world (id role : String)
    (hid : id ≠ "") (hrole : role ≠ "") :
    accumulateMessage (helloWorldEvents id role) =
      .ok { id := some (Json.str id), role := Json.str role,
            content := "Hello, world!", toolResults := [] } := by
  simp [accumulateMessage, helloWorldEvents, MessageAccumulator.handleEvent,
    MessageAccumulator.handleStart, MessageAccumulator.handleContent,
    MessageAccumulator.handleEnd, jfield, objGet, mapGet, mapSet, keyBeq,
    jsonBeq, jsOrD, jsOr, jsTruthy, jsTruthyU, jsToStringU, jsToString,
    msgValid, hid, hrole, List.enum]

/-- Witness for C4 at id = "m1", role = "user". -/
theorem accumulate_message_hello_world_witness :
    accumulateMessage (helloWorldEvents "m1" "user") =
      .ok { id := some (Json.str "m1"), role := Json.str "user",
            content := "Hello, world!", toolResults := [] } :=
  accumulate_message_hello_world "m1" "user" (by decide) (by decide)

/-- Claim C5: if the parent message (id "parentMsg") already exists in the
published message list and no tool call "tc1" is known, processing
START(tc1,"search",parentMsg) · ARGS(tc1,'\x7b"query":"test"\x7d') ·
END(tc1) · RESULT(tc1,"Found 5 results","success") appends
`ToolResult\x7bid:tc1, toolName:"search", input:\x7bquery:"test"\x7d,
output:"Found 5 results", status:"success"\x7d` to that parent's
`toolResults`, leaving every other message unchanged. -/
theorem tool_call_sequence_attaches_result
    (msgs1 msgs2 : List Message) (m : Message) (rs : RunState)
    (h0 : rs.chat.messages = msgs1 ++ m :: msgs2)
    (h1 : ∀ m2 ∈ msgs1, jsonBeq m2.id (Json.str "parentMsg") = false)
    (h2 : jsonBeq m.id (Json.str "parentMsg") = true)
    (h3 : ∀ m2 ∈ rs.chat.messages, ∀ trs, m2.toolResults = some trs →
      ∀ t2 ∈ trs, jsonBeq t2.id (Json.str "tc1") = false) :
    (runEvents toolCallEvents rs).2 = none ∧
    (runEvents toolCallEvents rs).1.chat.messages =
      msgs1 ++ { m with toolResults := some (m.toolResults.getD [] ++ [expectedToolResult]) } :: msgs2 := by
  have hm1 : ∀ m2 ∈ msgs1, ∀ trs, m2.toolResults = some trs →
      ∀ t2 ∈ trs, keyBeq (some t2.id) (some (Json.str "tc1")) = false :=
    fun m2 hm2 trs htrs t2 ht2 =>
      h3 m2 (h0 ▸ List.mem_append_left _ hm2) trs htrs t2 ht2
  have hm2 : ∀ m2 ∈ msgs2, ∀ trs, m2.toolResults = some trs →
      ∀ t2 ∈ trs, keyBeq (some t2.id) (some (Json.str "tc1")) = false :=
    fun m2 hmem trs htrs t2 ht2 =>
      h3 m2 (h0 ▸ List.mem_append_right _ (List.mem_cons_of_mem m hmem)) trs htrs t2 ht2
  have hmm : m ∈ rs.chat.messages :=
    h0 ▸ List.mem_append_right _ (List.mem_cons_self m msgs2)
  have hpre : ∀ t2 ∈ m.toolResults.getD [],
      keyBeq (some t2.id) (some (Json.str "tc1")) = false := by
    intro t2 ht2
    cases htr : m.toolResults with
    | none => rw [htr] at ht2; simp at ht2
    | some trs =>
      rw [htr] at ht2
      exact h3 m hmm trs htr t2 ht2
  have e1 : handleAGUIEvent toolStartEvent rs = .ok { rs with
      ta := ⟨mapSet rs.ta.toolCalls (some (Json.str "tc1")) tcStart⟩,
      chat := { rs.chat with messages := msgs1 ++ { m with toolResults := some (m.toolResults.getD [] ++ [trPending]) } :: msgs2 } } := by
    have hupd : ∀ f, updateMessageAt (msgs1 ++ m :: msgs2) (Json.str "parentMsg") f
        = msgs1 ++ f m :: msgs2 :=
      fun f => updateMessageAt_split _ _ _ _ f h1 h2
    simp [handleAGUIEvent, toolStartEvent, jfield, objGet,
      ToolCallAccumulator.handleEvent, ToolCallAccumulator.handleStart,
      ToolCallAccumulator.getParentMessageId, jsTruthy, jsTruthyU, jsOrD, jsOr,
      tcStart, trPending, h0, hupd]
    cases m.toolResults <;> rfl
  have hr2 : ToolCallAccumulator.handleEvent
      ⟨mapSet rs.ta.toolCalls (some (Json.str "tc1")) tcStart⟩ toolArgsEvent =
      (⟨mapSet (mapSet rs.ta.toolCalls (some (Json.str "tc1")) tcStart)
          (some (Json.str "tc1")) tcArgs⟩, some tcArgs) := by
    have hget : mapGet (mapSet rs.ta.toolCalls (some (Json.str "tc1")) tcStart)
        (some (Json.str "tc1")) = some tcStart := mapGet_mapSet_self _ _ _ rfl
    have hparse : parseJson (String.data "\x7b\"query\":\"test\"\x7d")
        = some (Json.obj [("query", Json.str "test")]) := rfl
    have htc2 : { tcStart with
        input := jsSpreadMerge tcStart.input (Json.obj [("query", Json.str "test")]) } = tcArgs := rfl
    simp [ToolCallAccumulator.handleEvent, ToolCallAccumulator.handleArgs,
      toolArgsEvent, jfield, objGet, hget, jsToStringU, jsToString, hparse, htc2]
  have e2 : handleAGUIEvent toolArgsEvent { rs with
      ta := ⟨mapSet rs.ta.toolCalls (some (Json.str "tc1")) tcStart⟩,
      chat := { rs.chat with messages := msgs1 ++ { m with toolResults := some (m.toolResults.getD [] ++ [trPending]) } :: msgs2 } } = .ok { rs with
      ta := ⟨mapSet (mapSet rs.ta.toolCalls (some (Json.str "tc1")) tcStart) (some (Json.str "tc1")) tcArgs⟩,
      chat := { rs.chat with messages := msgs1 ++ { m with toolResults := some (m.toolResults.getD [] ++ [trArgs]) } :: msgs2 } } := by
    have htid : tcArgs.id = some (Json.str "tc1") := rfl
    have htr2 : { trPending with input := tcArgs.input } = trArgs := rfl
    have hupd : ∀ f, updateToolResult
        (msgs1 ++ { m with toolResults := some (m.toolResults.getD [] ++ [trPending]) } :: msgs2)
        (some (Json.str "tc1")) f
        = msgs1 ++ { m with toolResults := some (m.toolResults.getD [] ++ [f trPending]) } :: msgs2 :=
      fun f => updateToolResult_split msgs1 msgs2 _ _ trPending _ f rfl hm1 hm2 hpre rfl
    have hty : jfield toolArgsEvent "type" = some (Json.str "TOOL_CALL_ARGS") := rfl
    simp [handleAGUIEvent, hty, hr2, htid, htr2, hupd, jsTruthy, jsTruthyU]
  have e3 : ∀ rsx : RunState, handleAGUIEvent toolEndEvent rsx = .ok rsx := by
    intro rsx
    have hty : jfield toolEndEvent "type" = some (Json.str "TOOL_CALL_END") := rfl
    simp [handleAGUIEvent, hty]
  have hr4 : ToolCallAccumulator.handleEvent
      ⟨mapSet (mapSet rs.ta.toolCalls (some (Json.str "tc1")) tcStart)
        (some (Json.str "tc1")) tcArgs⟩ toolResultEvent =
      (⟨mapSet (mapSet (mapSet rs.ta.toolCalls (some (Json.str "tc1")) tcStart)
          (some (Json.str "tc1")) tcArgs) (some (Json.str "tc1")) tcDone⟩, some tcDone) := by
    have hget : mapGet (mapSet (mapSet rs.ta.toolCalls (some (Json.str "tc1")) tcStart)
        (some (Json.str "tc1")) tcArgs) (some (Json.str "tc1")) = some tcArgs :=
      mapGet_mapSet_self _ _ _ rfl
    have hcid : jfield toolResultEvent "toolCallId" = some (Json.str "tc1") := rfl
    have hres : jfield toolResultEvent "result" = some (Json.str "Found 5 results") := rfl
    have hst : jfield toolResultEvent "status" = some (Json.str "success") := rfl
    have hty : jfield toolResultEvent "type" = some (Json.str "TOOL_CALL_RESULT") := rfl
    have htc3 : { tcArgs with output := some (Json.str "Found 5 results"), status := Json.str "success" } = tcDone := rfl
    simp [ToolCallAccumulator.handleEvent, ToolCallAccumulator.handleResult,
      hty, hcid, hres, hst, hget, jsOrD, jsOr, jsTruthy, htc3]
  have e4 : handleAGUIEvent toolResultEvent { rs with
      ta := ⟨mapSet (mapSet rs.ta.toolCalls (some (Json.str "tc1")) tcStart) (some (Json.str "tc1")) tcArgs⟩,
      chat := { rs.chat with messages := msgs1 ++ { m with toolResults := some (m.toolResults.getD [] ++ [trArgs]) } :: msgs2 } } = .ok { rs with
      ta := ⟨mapSet (mapSet (mapSet rs.ta.toolCalls (some (Json.str "tc1")) tcStart) (some (Json.str "tc1")) tcArgs) (some (Json.str "tc1")) tcDone⟩,
      chat := { rs.chat with messages := msgs1 ++ { m with toolResults := some (m.toolResults.getD [] ++ [expectedToolResult]) } :: msgs2 } } := by
    have htid : tcDone.id = some (Json.str "tc1") := rfl
    have hout : jsOrD tcDone.output (Json.str "") = Json.str "Found 5 results" := rfl
    have hstat : jsOr tcDone.status (Json.str "success") = Json.str "success" := rfl
    have htr3 : { trArgs with output := Json.str "Found 5 results", status := Json.str "success" } = expectedToolResult := rfl
    have hupd : ∀ f, updateToolResult
        (msgs1 ++ { m with toolResults := some (m.toolResults.getD [] ++ [trArgs]) } :: msgs2)
        (some (Json.str "tc1")) f
        = msgs1 ++ { m with toolResults := some (m.toolResults.getD [] ++ [f trArgs]) } :: msgs2 :=
      fun f => updateToolResult_split msgs1 msgs2 _ _ trArgs _ f rfl hm1 hm2 hpre rfl
    have hty : jfield toolResultEvent "type" = some (Json.str "TOOL_CALL_RESULT") := rfl
    simp [handleAGUIEvent, hty, hr4, htid, hout, hstat, htr3, hupd,
      jsTruthy, jsTruthyU]
  rw [show toolCallEvents =
        toolStartEvent :: toolArgsEvent :: toolEndEvent :: [toolResultEvent] from rfl,
      runEvents_cons_ok _ _ _ _ e1, runEvents_cons_ok _ _ _ _ e2,
      runEvents_cons_ok _ _ _ _ (e3 _), runEvents_cons_ok _ _ _ _ e4]
  exact ⟨rfl, rfl⟩

/-- Witness for C5 over a published list holding only the parent. -/
theorem tool_call_sequence_attaches_result_witness :
    (runEvents toolCallEvents exToolRun).2 = none ∧
    (runEvents toolCallEvents exToolRun).1.chat.messages =
      [] ++ { exParentMsg with toolResults := some (exParentMsg.toolResults.getD [] ++ [expectedToolResult]) } :: [] := by
  refine tool_call_sequence_attaches_result [] [] exParentMsg exToolRun rfl
    (fun m2 h => absurd h (List.not_mem_nil m2)) rfl ?_
  intro m2 hm trs htr t2 ht2
  rw [show exToolRun.chat.messages = [exParentMsg] from rfl,
      List.mem_singleton] at hm
  subst hm
  rw [show exParentMsg.toolResults = some [] from rfl] at htr
  injection htr with h
  subst h
  simp at ht2

/-- Claim C6: a TOOL_CALL_ARGS event for an existing tool call merges the
parsed JSON object into the input map; on a parse failure the entry and
its input are left completely unchanged and no exception propagates, so a
later ARGS event with complete JSON still succeeds. -/
theorem tool_args_parse_merge_or_preserve :
    ∀ (acc : ToolCallAccumulator) (e : Json) (tc : PartialToolResult),
      jfield e "type" = some (Json.str "TOOL_CALL_ARGS") →
      mapGet acc.toolCalls (jfield e "toolCallId") = some tc →
      ((∀ o, parseJson (jsToStringU (jfield e "args")).data = some (Json.obj o) →
        acc.handleEvent e =
          (⟨mapSet acc.toolCalls (jfield e "toolCallId")
              { tc with input := jsSpreadMerge tc.input (Json.obj o) }⟩,
            some { tc with input := jsSpreadMerge tc.input (Json.obj o) })) ∧
      (parseJson (jsToStringU (jfield e "args")).data = none →
        acc.handleEvent e = (acc, some tc)) ∧
      (∀ (e2 : Json) (o : List (String × Json)),
        parseJson (jsToStringU (jfield e "args")).data = none →
        jfield e2 "type" = some (Json.str "TOOL_CALL_ARGS") →
        jfield e2 "toolCallId" = jfield e "toolCallId" →
        parseJson (jsToStringU (jfield e2 "args")).data = some (Json.obj o) →
        ((acc.handleEvent e).1.handleEvent e2).2 =
          some { tc with input := jsSpreadMerge tc.input (Json.obj o) })) := by
  intro acc e tc ht hg
  have hb : parseJson (jsToStringU (jfield e "args")).data = none →
      acc.handleEvent e = (acc, some tc) := by
    intro hp
    simp [ToolCallAccumulator.handleEvent, ht, ToolCallAccumulator.handleArgs,
      hg, hp, mapSet_self_of_get _ _ _ hg]
  refine ⟨?_, hb, ?_⟩
  · intro o hp
    simp [ToolCallAccumulator.handleEvent, ht, ToolCallAccumulator.handleArgs,
      hg, hp]
  · intro e2 o hpn ht2 hid2 hp2
    rw [hb hpn]
    have hg2 : mapGet acc.toolCalls (jfield e2 "toolCallId") = some tc := by
      rw [hid2]; exact hg
    simp [ToolCallAccumulator.handleEvent, ht2,
      ToolCallAccumulator.handleArgs, hg2, hp2]

/-- Witness for C6: an invalid-JSON ARGS event leaves the entry alone, and
a following well-formed ARGS event still merges. -/
theorem tool_args_parse_merge_or_preserve_witness :
    exAccWithTc.handleEvent exBadArgsEvent = (exAccWithTc, some tcStart) ∧
    ((exAccWithTc.handleEvent exBadArgsEvent).1.handleEvent toolArgsEvent).2 =
      some { tcStart with
        input := jsSpreadMerge tcStart.input (Json.obj [("query", Json.str "test")]) } :=
  ⟨(tool_args_parse_merge_or_preserve exAccWithTc exBadArgsEvent tcStart
      rfl rfl).2.1 rfl,
    (tool_args_parse_merge_or_preserve exAccWithTc exBadArgsEvent tcStart
      rfl rfl).2.2 toolArgsEvent [("query", Json.str "test")] rfl rfl rfl rfl⟩

/-- Claim C7: applying the delta
`[\x7bop:"replace", path:"/counter", value:1\x7d]` to the snapshot
`\x7bcounter:0, mode:"active"\x7d` yields `\x7bcounter:1, mode:"active"\x7d`, and an
unsupported operation (move/copy/test) anywhere in a delta list is
skipped while every other operation of the same list is still applied. -/
theorem state_delta_replace_and_unsupported_skip :
    applyStateDelta exSnapshotState exReplaceDelta =
      .ok (Json.obj [("counter", Json.num 1), ("mode", Json.str "active")]) ∧
    (∀ (s : Json) (pre post : List Json) (mv : Json) (path : String),
      jfield mv "path" = some (Json.str path) →
      (jfield mv "op" = some (Json.str "move") ∨
       jfield mv "op" = some (Json.str "copy") ∨
       jfield mv "op" = some (Json.str "test")) →
      applyStateDelta s (Json.arr (pre ++ mv :: post)) =
        applyStateDelta s (Json.arr (pre ++ post))) := by
  constructor
  · rfl
  · intro s pre post mv path hpath hop
    have hskip : ∀ cur, applyOp cur mv = .ok cur := by
      intro cur
      rcases hop with h | h | h <;> simp [applyOp, hpath, h]
    show (pre ++ mv :: post).foldlM applyOp s = (pre ++ post).foldlM applyOp s
    rw [List.foldlM_append, List.foldlM_append]
    apply bind_congr
    intro x
    rw [List.foldlM_cons, hskip x]
    rfl

/-- Witness for C7: a `move` between two supported operations is
skipped. -/
theorem state_delta_unsupported_skip_witness :
    applyStateDelta exSnapshotState (Json.arr ([] ++ exMoveOp :: [exAddOp])) =
      applyStateDelta exSnapshotState (Json.arr ([] ++ [exAddOp])) :=
  state_delta_replace_and_unsupported_skip.2 exSnapshotState [] [exAddOp]
    exMoveOp "/a" rfl (Or.inl rfl)

/-- Claim C8: a record whose payload is malformed JSON is dropped without
raising and processing continues; the concrete stream `data: \x7binvalid\x7d`
followed by RUN_FINISHED ends with `error` still null and `isStreaming`
false. -/
theorem malformed_record_dropped_continue :
    (∀ payload : List Char, parseJson (trimChars payload) = none →
      processLine ("data: ".data ++ payload) = []) ∧
    (sendMessage initialChatState "Hello" "u0" [exMalformedStream]).1.error = none ∧
    (sendMessage initialChatState "Hello" "u0" [exMalformedStream]).1.isStreaming = false := by
  refine ⟨?_, rfl, rfl⟩
  intro payload h
  have e : ("data: ".data).length = 6 := rfl
  have h6 : ("data: ".data ++ payload).take 6 = "data: ".data := by
    rw [← e, List.take_left]
  have h7 : ("data: ".data ++ payload).drop 6 = payload := by
    rw [← e, List.drop_left]
  simp only [processLine, h6, h7, h]
  simp

/-- Witness for C8 at the payload `\x7binvalid\x7d`. -/
theorem malformed_record_dropped_continue_witness :
    processLine ("data: ".data ++ "\x7binvalid\x7d".data) = [] :=
  malformed_record_dropped_continue.1 "\x7binvalid\x7d".data rfl

/-- Claim C9: a `sendMessage` call while `isStreaming` is true is a
no-op — no network request, no message added, no published state changed;
and after a first send passes the guard (which sets `isStreaming`
synchronously before the first await), a second concurrent send is such a
no-op, so only the first reaches the transport. -/
theorem send_message_noop_while_streaming :
    (∀ (chat : ChatState) (content fresh : String) (chunks : List (List Char)),
      chat.isStreaming = true →
      sendMessage chat content fresh chunks = (chat, false)) ∧
    (∀ (chat : ChatState) (c1 f1 : String) (st1 : ChatState),
      sendStart chat c1 f1 = some st1 →
      ∀ (c2 f2 : String) (chunks : List (List Char)),
        sendMessage st1 c2 f2 chunks = (st1, false)) := by
  have hguard : ∀ (chat : ChatState) (content fresh : String),
      chat.isStreaming = true → sendStart chat content fresh = none := by
    intro chat content fresh h
    simp [sendStart, h]
  have hmain : ∀ (chat : ChatState) (content fresh : String)
      (chunks : List (List Char)), chat.isStreaming = true →
      sendMessage chat content fresh chunks = (chat, false) := by
    intro chat content fresh chunks h
    simp only [sendMessage, hguard chat content fresh h]
  refine ⟨hmain, ?_⟩
  intro chat c1 f1 st1 h c2 f2 chunks
  have hstream : st1.isStreaming = true := by
    rw [sendStart] at h
    split at h
    · exact Option.noConfusion h
    · rw [← Option.some_injective _ h]
  exact hmain st1 c2 f2 chunks hstream

/-- Witness for C9: two sends against the state reached by a first
guarded send. -/
theorem send_message_noop_while_streaming_witness :
    sendMessage exStartedChat "x" "u1" [] = (exStartedChat, false) ∧
    sendMessage exStartedChat "second" "u2" [] = (exStartedChat, false) :=
  ⟨send_message_noop_while_streaming.1 exStartedChat "x" "u1" [] rfl,
    send_message_noop_while_streaming.2 initialChatState "Hi" "u0"
      exStartedChat rfl "second" "u2" []⟩

/-- Claim C10: a STATE_DELTA event processed while no agent state is set
publishes the raw patch-operation array from the event itself, with no
operations applied; `applyStateDelta` is used only when a previous
(truthy) agent state exists. -/
theorem state_delta_without_prior_snapshot_raw :
    (∀ (e : Json) (rs : RunState),
      jfield e "type" = some (Json.str "STATE_DELTA") →
      rs.chat.agentState = none →
      handleAGUIEvent e rs =
        .ok { rs with chat := { rs.chat with agentState := jfield e "delta" } }) ∧
    (∀ (e : Json) (rs : RunState) (prev d : Json),
      jfield e "type" = some (Json.str "STATE_DELTA") →
      rs.chat.agentState = some prev → jsTruthy prev = true →
      jfield e "delta" = some d →
      handleAGUIEvent e rs = (applyStateDelta prev d).map (fun v =>
        { rs with chat := { rs.chat with agentState := some v } })) := by
  constructor
  · intro e rs ht hs
    simp [handleAGUIEvent, ht, hs, jsTruthyU]
  · intro e rs prev d ht hs htr hd
    simp only [handleAGUIEvent, ht, hs, jsTruthyU, htr, hd]
    cases applyStateDelta prev d <;> simp [Except.map]

/-- Witness for C10: the concrete STATE_DELTA event against an empty and
against a snapshot-holding state. -/
theorem state_delta_without_prior_snapshot_raw_witness :
    handleAGUIEvent exStateDeltaEvent exIdleRun =
      .ok { exIdleRun with chat :=
        { exIdleRun.chat with agentState := jfield exStateDeltaEvent "delta" } } ∧
    handleAGUIEvent exStateDeltaEvent exStatefulRun =
      (applyStateDelta exSnapshotState exReplaceDelta).map (fun v =>
        { exStatefulRun with chat :=
          { exStatefulRun.chat with agentState := some v } }) :=
  ⟨state_delta_without_prior_snapshot_raw.1 exStateDeltaEvent exIdleRun rfl rfl,
    state_delta_without_prior_snapshot_raw.2 exStateDeltaEvent exStatefulRun
      exSnapshotState exReplaceDelta rfl rfl rfl rfl⟩
